import Mathlib

/-!
Shallow embedding of the retrieval core of the Hackprint_group_10 repository
(directory `Task_2`): the FAISS-backed vector store (`faiss_vector_store.py`)
and the hybrid RAG orchestrator (`rag_system.py`).

Real numbers of the Python/NumPy code are modelled as rationals, Python lists
as Lean lists, Python dicts holding documents as a record type with optional
fields, and raised exceptions as `Except` errors.  The external FAISS flat
index (`faiss.IndexFlatL2`) is modelled by `faissFlatSearch`: exact k-nearest
search by squared Euclidean distance that always returns exactly `k`
`(label, distance)` rows, padding with label `-1` and a huge distance
(`FLT_MAX`, modelled by `padDistance`) when fewer than `k` vectors are stored,
which is the documented FAISS behaviour relied on by the source.
-/

namespace Spec2Proof

/-- A Python document dictionary as used by the system: an optional
`emp_id` field (present on structured employee records), an optional
`embedding` field (required by `FAISSVectorStore.add_documents`), and the
remaining payload collapsed into an opaque string. -/
structure Doc where
  emp_id : Option String := none
  embedding : Option (List ℚ) := none
  data : String := ""
deriving DecidableEq, Repr, Inhabited

/-- Squared Euclidean distance between two vectors, the metric of
`faiss.IndexFlatL2` (extra coordinates of a longer vector are ignored,
matching the equal-length usage in the source). -/
def sqDist : List ℚ → List ℚ → ℚ
  | a :: as, b :: bs => (a - b) ^ 2 + sqDist as bs
  | _, _ => 0

/-- Distance reported by FAISS for padded (absent) neighbours: `FLT_MAX`,
the largest finite 32-bit float, is `(2 - 2^-23) * 2^127 < 2^128`; we model
it as `2^128`, only its hugeness matters. -/
def padDistance : ℚ := 2 ^ 128

/-- Stored vectors paired with their insertion positions (FAISS labels),
starting from `i`. -/
def labelled (q : List ℚ) : ℕ → List (List ℚ) → List (Int × ℚ)
  | _, [] => []
  | i, v :: t => ((i : Int), sqDist q v) :: labelled q (i + 1) t

/-- Ordering of candidate rows by ascending distance. -/
def distLE (a b : Int × ℚ) : Prop := a.2 ≤ b.2

instance : DecidableRel distLE := fun a b => inferInstanceAs (Decidable (a.2 ≤ b.2))

instance : IsTotal (Int × ℚ) distLE := ⟨fun a b => le_total a.2 b.2⟩

instance : IsTrans (Int × ℚ) distLE := ⟨fun _ _ _ h1 h2 => le_trans h1 h2⟩

/-- Model of `faiss.IndexFlatL2.search` on one query: the stored vectors
ranked by ascending squared L2 distance, truncated to `k` rows and padded
with `(-1, FLT_MAX)` rows up to exactly `k` rows, as FAISS does when the
index holds fewer than `k` vectors. -/
def faissFlatSearch (stored : List (List ℚ)) (q : List ℚ) (k : ℕ) : List (Int × ℚ) :=
  let top := (List.insertionSort distLE (labelled q 0 stored)).take k
  top ++ List.replicate (k - top.length) ((-1 : Int), padDistance)

/-- Python sequence indexing `l[i]` with negative-index wrap-around:
`l[-j]` is `l[len l - j]` for `1 ≤ j ≤ len l`; out-of-range access yields
`none` (an `IndexError` in Python). -/
def pyGet {α : Type} (l : List α) (i : Int) : Option α :=
  if 0 ≤ i then l[i.toNat]?
  else if (-i).toNat ≤ l.length then l[l.length - (-i).toNat]? else none

/-- Distance-to-similarity transform of `FAISSVectorStore.search`
(line 130 of `faiss_vector_store.py`): `similarity = 1 / (1 + dist)`. -/
def distToSim (d : ℚ) : ℚ := 1 / (1 + d)

/-- State of a `FAISSVectorStore`: the embedding dimension, the index-type
tag (`"flat"` or `"ivf"`), the vectors held by the underlying FAISS index
(`index.ntotal` is their count), and the parallel list of original
documents. -/
structure FAISSVectorStore where
  dimension : ℕ
  indexType : String
  vectors : List (List ℚ)
  documents : List Doc
deriving DecidableEq, Repr, Inhabited

namespace FAISSVectorStore

/-- Constructor `FAISSVectorStore(dimension, index_type)`: empty document
list and a fresh (empty) FAISS index. -/
def empty (dimension : ℕ) (indexType : String) : FAISSVectorStore :=
  { dimension := dimension, indexType := indexType, vectors := [], documents := [] }

/-- Embedding-extraction loop of `add_documents` (lines 74-78): walks the
batch and raises `ValueError("Document missing 'embedding' field")` at the
first document without the field, before anything is added. -/
def extractEmbeddings : List Doc → Except String (List (List ℚ))
  | [] => .ok []
  | d :: ds =>
    match d.embedding with
    | none => .error "Document missing \x27embedding\x27 field"
    | some e =>
      match extractEmbeddings ds with
      | .error msg => .error msg
      | .ok rest => .ok (e :: rest)

/-- Method `add_documents` (lines 61-98): an empty batch is a no-op
(only a warning is logged); otherwise all embeddings are extracted first
(raising on a missing field), then appended to the FAISS index and the
documents appended to the parallel list.  The IVF training step does not
change the vector or document counts and is omitted. -/
def add_documents (s : FAISSVectorStore) (docs : List Doc) :
    Except String FAISSVectorStore :=
  if docs.isEmpty then .ok s
  else
    match extractEmbeddings docs with
    | .error e => .error e
    | .ok embs =>
      .ok { s with vectors := s.vectors ++ embs, documents := s.documents ++ docs }

/-- Method `search` (lines 100-137): empty index returns `[]`; otherwise the
FAISS rows `(idx, dist)` are turned into `(documents[idx], 1 / (1 + dist))`
pairs, keeping only rows passing the guard `idx < len(documents)`.  The
dereference `self.documents[idx]` uses Python indexing, so a padded `-1`
label reads the last stored document. -/
def search (s : FAISSVectorStore) (q : List ℚ) (k : ℕ) : List (Doc × ℚ) :=
  if s.vectors.length = 0 then []
  else
    (faissFlatSearch s.vectors q k).filterMap fun r =>
      if r.1 < (s.documents.length : Int) then
        (pyGet s.documents r.1).map fun d => (d, distToSim r.2)
      else none

/-- Statistics record returned by `get_stats` (lines 194-201). -/
structure Stats where
  total_vectors : ℕ
  dimension : ℕ
  indexType : String
  is_trained : Bool
  total_documents : ℕ
deriving DecidableEq, Repr

/-- Method `get_stats` (lines 194-201). -/
def get_stats (s : FAISSVectorStore) : Stats :=
  { total_vectors := s.vectors.length
    dimension := s.dimension
    indexType := s.indexType
    is_trained := true
    total_documents := s.documents.length }

/-- Method `clear` (lines 203-209): drops the documents and recreates a
fresh index of the same dimension and type. -/
def clear (s : FAISSVectorStore) : FAISSVectorStore :=
  { s with documents := [], vectors := [] }

end FAISSVectorStore

/-- One mutating call on a vector store: `add_documents` with some batch, or
`clear`. -/
inductive StoreOp
  | add (docs : List Doc)
  | clear
deriving Repr

/-- Effect of one call on the store state; a raised `add_documents`
error propagates to the caller and leaves the store unchanged. -/
def applyOp (s : FAISSVectorStore) : StoreOp → FAISSVectorStore
  | .add docs =>
    match s.add_documents docs with
    | .ok s2 => s2
    | .error _ => s
  | .clear => s.clear

/-- State of a flat vector store after a sequence of `add_documents` and
`clear` calls starting from a fresh `FAISSVectorStore(d, "flat")`. -/
def flatStore (d : ℕ) (ops : List StoreOp) : FAISSVectorStore :=
  ops.foldl applyOp (FAISSVectorStore.empty d "flat")

/-! ## Configuration constants (`config.py`) -/

/-- Constant `TOP_K_RESULTS = 5` of `config.py`. -/
def TOP_K_RESULTS : ℕ := 5

/-- Constant `SIMILARITY_THRESHOLD = 0.3` of `config.py`. -/
def SIMILARITY_THRESHOLD : ℚ := 3 / 10

/-! ## Hybrid RAG system (`rag_system.py`) -/

/-- Employee-id scanner at one position: the regex `emp\d+` anchored at the
head of the (already lowercased) character list, with the greedy `\d+`
taking the longest digit run. -/
def matchEmpAt : List Char → Option (List Char)
  | 'e' :: 'm' :: 'p' :: rest =>
    let ds := rest.takeWhile Char.isDigit
    if ds.isEmpty then none else some ('e' :: 'm' :: 'p' :: ds)
  | _ => none

/-- Leftmost match of `re.search(r"emp\d+", q)` on a lowercased character
list: the first position where `matchEmpAt` succeeds. -/
def findEmpMatch : List Char → Option (List Char)
  | [] => none
  | c :: rest =>
    match matchEmpAt (c :: rest) with
    | some m => some m
    | none => findEmpMatch rest

/-- MongoDB `find_one(employees, {"emp_id": eid})`: the first document of
the collection (in insertion order) whose `emp_id` field equals `eid`. -/
def find_one_employee (coll : List Doc) (eid : String) : Option Doc :=
  coll.find? fun d => d.emp_id == some eid

/-- State and collaborators of a `HybridRAGSystem`: the structured employee
collection, the three category indexes created in `__init__`, the embedding
provider and language model as opaque text functions, and the policy text. -/
structure HybridRAGSystem where
  db_employees : List Doc
  employee_index : FAISSVectorStore
  attendance_index : FAISSVectorStore
  leave_index : FAISSVectorStore
  embed : String → List ℚ
  llm : String → String
  policy_text : String

/-- Which collaborators a `query` call invoked: the embedding provider
(`generate_embedding`), the FAISS indexes (`search`), and the language
model (`generate_response`). -/
structure Effects where
  usedEmbedding : Bool
  usedVectorIndexes : Bool
  usedLLM : Bool
deriving DecidableEq, Repr

/-- Response dictionary built by `ResponseFormatter.format_response` plus
the `search_method` key the caller adds; the early no-results return of
`query` builds the dictionary without a `source_count` key, modelled by
`none`. -/
structure Response where
  answer : String
  sources : List Doc
  source_count : Option ℕ
  confidence : ℚ
  search_method : String

/-- Static `ResponseFormatter.format_response` of `llm_interface.py`
(the `search_method` key is stamped on afterwards by the caller). -/
def format_response (answer : String) (docs : List Doc) (confidence : ℚ) : Response :=
  { answer := answer
    sources := docs
    source_count := some docs.length
    confidence := confidence
    search_method := "" }

/-- Rendering of one numbered reference line `f"[{i}] {d}\n"` of
`build_hr_query_prompt`; the Python `str(dict)` rendering of a document is
modelled by its opaque `data` payload. -/
def docLines : ℕ → List Doc → String
  | _, [] => ""
  | i, d :: ds => "[" ++ toString i ++ "] " ++ d.data ++ "\n" ++ docLines (i + 1) ds

/-- Static `PromptBuilder.build_hr_query_prompt` of `llm_interface.py`. -/
def build_hr_query_prompt (query : String) (docs : List Doc) (policy_context : String) :
    String :=
  let p1 := "You are a helpful HR assistant.\n"
  let p2 := if policy_context = "" then p1
            else p1 ++ "Company Policy:\n" ++ policy_context ++ "\n"
  let p3 := if docs.isEmpty then p2 else p2 ++ "Reference Documents:\n" ++ docLines 1 docs
  p3 ++ "\nAnswer the question clearly:\n" ++ query ++ "\n"

/-- Method `_try_structured_query` (lines 241-255): lowercase the query,
search for an `emp\d+` token, uppercase it, and look the employee up in the
structured store; returns the one-element list on a hit, `None` otherwise. -/
def try_structured_query (sys : HybridRAGSystem) (query_text : String) :
    Option (List Doc) :=
  match findEmpMatch (query_text.toList.map Char.toLower) with
  | some m =>
    match find_one_employee sys.db_employees (String.mk (m.map Char.toUpper)) with
    | some doc => some [doc]
    | none => none
  | none => none

/-- Method `query_semantic` (lines 156-174) in its `index_name = "all"`
form, the only form `query` uses: embed the query, search each of the three
category indexes with the same `k`, concatenate, sort descending by
similarity (Python `list.sort(key=..., reverse=True)`), and keep the global
top `k`. -/
def query_semantic (sys : HybridRAGSystem) (query_text : String) (k : ℕ) :
    List (Doc × ℚ) :=
  let qv := sys.embed query_text
  let results := sys.employee_index.search qv k ++ sys.attendance_index.search qv k ++
    sys.leave_index.search qv k
  (List.insertionSort (fun a b => b.2 ≤ a.2) results).take k

/-- Similarity-threshold filter of `query` (lines 196-199): keep the
semantic results with `sim >= threshold`. -/
def thresholdFilter (t : ℚ) (rs : List (Doc × ℚ)) : List (Doc × ℚ) :=
  rs.filter fun r => t ≤ r.2

/-- Mean of a list of rationals, as `np.mean` on the similarity scores. -/
def mean (l : List ℚ) : ℚ := l.sum / l.length

/-- Semantic fallback branch of `query` (lines 190-235, taken when the
structured attempt produced no results): filter the fan-out results by the
similarity threshold; if nothing survives return the no-results response
without calling the language model, otherwise use the mean similarity as
confidence, build the prompt, call the language model and stamp the
`"semantic"` method tag. -/
def semanticBranch (sys : HybridRAGSystem) (query_text : String) :
    Response × Effects :=
  let filtered := thresholdFilter SIMILARITY_THRESHOLD
    (query_semantic sys query_text TOP_K_RESULTS)
  if filtered.isEmpty then
    ({ answer := "No relevant information found. Please rephrase your question."
       sources := []
       source_count := none
       confidence := 0
       search_method := "semantic" },
     { usedEmbedding := true, usedVectorIndexes := true, usedLLM := false })
  else
    let docs := filtered.map Prod.fst
    let confidence := mean (filtered.map Prod.snd)
    let prompt := build_hr_query_prompt query_text docs (sys.policy_text.take 2000)
    let answer := sys.llm prompt
    let resp := format_response answer docs confidence
    ({ resp with search_method := "semantic" },
     { usedEmbedding := true, usedVectorIndexes := true, usedLLM := true })

/-- Method `query` (lines 176-235): try the structured lookup first when
enabled; a truthy (non-empty) structured result short-circuits with the
fixed confidence `0.9` and method `"structured"`, anything else falls
through to the semantic branch. -/
def query (sys : HybridRAGSystem) (query_text : String) (use_structured : Bool) :
    Response × Effects :=
  match (if use_structured then try_structured_query sys query_text else none) with
  | some ds =>
    if ds.isEmpty then semanticBranch sys query_text
    else
      let confidence : ℚ := 9 / 10
      let prompt := build_hr_query_prompt query_text ds (sys.policy_text.take 2000)
      let answer := sys.llm prompt
      let resp := format_response answer ds confidence
      ({ resp with search_method := "structured" },
       { usedEmbedding := false, usedVectorIndexes := false, usedLLM := true })
  | none => semanticBranch sys query_text

/-! ## Multi-index manager persistence (`MultiIndexManager`, lines 215-256) -/

/-- Contents of the persistence directory: the FAISS index blobs (the
stored vectors) and the pickled document lists, keyed by file path. -/
structure Disk where
  indexFiles : String → Option (List (List ℚ))
  docFiles : String → Option (List Doc)

/-- Registry of named vector stores sharing one dimension; the Python dict
is modelled as an insertion-ordered association list. -/
structure MultiIndexManager where
  dimension : ℕ
  indexes : List (String × FAISSVectorStore)

/-- Python dict assignment `d[k] = v`: replace the value of an existing key
in place, or append a new binding. -/
def dictSet {α : Type} : List (String × α) → String → α → List (String × α)
  | [], k, v => [(k, v)]
  | (k2, v2) :: t, k, v =>
    if k2 = k then (k, v) :: t else (k2, v2) :: dictSet t k v

/-- Python dict lookup `d.get(k)`. -/
def dictLookup {α : Type} (l : List (String × α)) (k : String) : Option α :=
  (l.find? fun p => p.1 == k).map Prod.snd

/-- Per-category index artifact path `os.path.join(base, f"{name}_index.faiss")`. -/
def indexPath (base name : String) : String := base ++ "/" ++ name ++ "_index.faiss"

/-- Per-category documents artifact path `os.path.join(base, f"{name}_docs.pkl")`. -/
def docsPath (base name : String) : String := base ++ "/" ++ name ++ "_docs.pkl"

/-- Loop body of `load_all` for one category name: when both artifact files
exist, a fresh flat store of the manager dimension is loaded from them and
registered; otherwise the body does nothing for that name (no exception is
raised and the registry entry is left as it was). -/
def loadOne (disk : Disk) (base : String) (m : MultiIndexManager) (name : String) :
    MultiIndexManager :=
  match disk.indexFiles (indexPath base name), disk.docFiles (docsPath base name) with
  | some vecs, some docsL =>
    let loaded : FAISSVectorStore :=
      { dimension := m.dimension, indexType := "flat",
        vectors := vecs, documents := docsL }
    { m with indexes := dictSet m.indexes name loaded }
  | _, _ => m

/-- Method `load_all` (lines 247-255).  The `Except` layer is the channel a
raised exception would use; the missing-artifact branch is a plain guarded
skip in the source, so the fold never produces an error. -/
def load_all (m : MultiIndexManager) (disk : Disk) (base : String)
    (index_names : List String) : Except String MultiIndexManager :=
  .ok (index_names.foldl (loadOne disk base) m)

instance : IsTotal (Doc × ℚ) (fun a b => b.2 ≤ a.2) :=
  ⟨fun a b => le_total b.2 a.2⟩

instance : IsTrans (Doc × ℚ) (fun a b => b.2 ≤ a.2) :=
  ⟨fun _ _ _ h1 h2 => le_trans h2 h1⟩

/-! ## Claim statements quoted from the specification -/

/-- Counts reported by `get_stats` agree: `total_vectors == total_documents`. -/
def vectorDocCountsMatch (s : FAISSVectorStore) : Prop :=
  (FAISSVectorStore.get_stats s).total_vectors =
    (FAISSVectorStore.get_stats s).total_documents

/-- Search part of claim C1 as stated: every returned pair carries the
document that was added at the index position the underlying FAISS index
reported for that result (an insertion position is a natural number). -/
def searchMatchesReported (s : FAISSVectorStore) (q : List ℚ) (k : ℕ) : Prop :=
  ∀ (j : ℕ) (pr : Doc × ℚ), (s.search q k)[j]? = some pr →
    ∃ (i : ℕ) (dist : ℚ),
      (faissFlatSearch s.vectors q k)[j]? = some ((i : Int), dist) ∧
      s.documents[i]? = some pr.1

/-- Claim C1 as stated: after any sequence of `add_documents` and `clear`
calls on a flat store, the vector and document counts agree, and every
search result carries the document added at the reported index position. -/
def ClaimC1 : Prop :=
  ∀ (d : ℕ) (ops : List StoreOp) (q : List ℚ) (k : ℕ),
    vectorDocCountsMatch (flatStore d ops) ∧
    searchMatchesReported (flatStore d ops) q k

/-- Claim C9 as stated: a category with a missing index or documents
artifact makes `load_all` surface a fatal error for that category. -/
def ClaimC9 : Prop :=
  ∀ (m : MultiIndexManager) (disk : Disk) (base : String)
    (names : List String) (c : String), c ∈ names →
    ((disk.indexFiles (indexPath base c)).isNone ∨
      (disk.docFiles (docsPath base c)).isNone) →
    ∃ e, load_all m disk base names = .error e

/-! ## Concrete fixtures used by witnesses and counterexamples -/

/-- Document with embedding `[0]`. -/
def exDoc0 : Doc := { data := "d0", embedding := some [0] }

/-- Document with embedding `[1]`. -/
def exDoc1 : Doc := { data := "d1", embedding := some [1] }

/-- Document with embedding `[2]`. -/
def exDoc2 : Doc := { data := "d2", embedding := some [2] }

/-- Document without an `embedding` field. -/
def exDocBad : Doc := { data := "bad" }

/-- Structured employee record for EMP1001. -/
def exEmployee : Doc := { emp_id := some "EMP1001", data := "Alice" }

/-- Flat store holding three one-dimensional documents. -/
def exStore : FAISSVectorStore := flatStore 1 [.add [exDoc0, exDoc1, exDoc2]]

/-- Flat store holding a single document. -/
def exStore1 : FAISSVectorStore := flatStore 1 [.add [exDoc0]]

/-- RAG system fixture: one structured employee, the three-document
employee index, empty attendance and leave indexes, an embedding provider
that always answers `[0]`, and a canned language model. -/
def exSys : HybridRAGSystem :=
  { db_employees := [exEmployee]
    employee_index := exStore
    attendance_index := FAISSVectorStore.empty 1 "flat"
    leave_index := FAISSVectorStore.empty 1 "flat"
    embed := fun _ => [0]
    llm := fun _ => "answer"
    policy_text := "" }

/-- RAG system fixture with all three indexes empty. -/
def exSysEmpty : HybridRAGSystem :=
  { db_employees := [exEmployee]
    employee_index := FAISSVectorStore.empty 1 "flat"
    attendance_index := FAISSVectorStore.empty 1 "flat"
    leave_index := FAISSVectorStore.empty 1 "flat"
    embed := fun _ => [0]
    llm := fun _ => "answer"
    policy_text := "" }

/-- Disk fixture: both artifacts exist for `attendance`, neither exists
for `employees`. -/
def exDisk : Disk :=
  { indexFiles := fun p => if p = indexPath "base" "attendance" then some [[0]] else none
    docFiles := fun p => if p = docsPath "base" "attendance" then some [exDoc0] else none }

/-- Registry fixture with two empty categories. -/
def exMgr : MultiIndexManager :=
  { dimension := 1
    indexes := [("employees", FAISSVectorStore.empty 1 "flat"),
                ("attendance", FAISSVectorStore.empty 1 "flat")] }

/-! ## Helper lemmas -/

theorem sqDist_nonneg (u v : List ℚ) : 0 ≤ sqDist u v := by
  induction u generalizing v with
  | nil => simp [sqDist]
  | cons a as ih =>
    cases v with
    | nil => simp [sqDist]
    | cons b bs =>
      have h1 : (0 : ℚ) ≤ (a - b) ^ 2 := sq_nonneg _
      have h2 := ih bs
      simpa [sqDist] using add_nonneg h1 h2

theorem padDistance_pos : 0 < padDistance := by
  unfold padDistance; positivity

theorem length_labelled (q : List ℚ) : ∀ (i : ℕ) (l : List (List ℚ)),
    (labelled q i l).length = l.length
  | _, [] => rfl
  | i, _ :: t => by simp [labelled, length_labelled q (i + 1) t]

theorem mem_labelled (q : List ℚ) : ∀ (i : ℕ) (l : List (List ℚ)) (r : Int × ℚ),
    r ∈ labelled q i l →
    (i : Int) ≤ r.1 ∧ r.1 < ((i + l.length : ℕ) : Int) ∧ 0 ≤ r.2
  | i, v :: t, r, hr => by
    rcases List.mem_cons.mp hr with h | h
    · subst h
      refine ⟨le_refl _, ?_, sqDist_nonneg q v⟩
      show (i : Int) < ((i + (v :: t).length : ℕ) : Int)
      have h4 : i < i + (v :: t).length := by simp
      exact_mod_cast h4
    · obtain ⟨h1, h2, h3⟩ := mem_labelled q (i + 1) t r h
      refine ⟨le_trans (by exact_mod_cast Nat.le_succ i) h1, ?_, h3⟩
      have : ((i + 1 + t.length : ℕ) : Int) = ((i + (t.length + 1) : ℕ) : Int) := by
        push_cast; ring
      rw [this] at h2
      simpa using h2

theorem faissFlatSearch_length (stored : List (List ℚ)) (q : List ℚ) (k : ℕ) :
    (faissFlatSearch stored q k).length = k := by
  unfold faissFlatSearch
  have hsort : (List.insertionSort distLE (labelled q 0 stored)).length =
      (labelled q 0 stored).length := (List.perm_insertionSort distLE _).length_eq
  simp only [List.length_append, List.length_replicate, List.length_take, hsort,
    length_labelled]
  omega

theorem mem_faissFlatSearch (stored : List (List ℚ)) (q : List ℚ) (k : ℕ)
    (r : Int × ℚ) (hr : r ∈ faissFlatSearch stored q k) :
    (0 ≤ r.1 → r.1 < (stored.length : Int)) ∧ 0 ≤ r.2 ∧
      (¬ 0 ≤ r.1 → r = ((-1 : Int), padDistance)) := by
  unfold faissFlatSearch at hr
  rcases List.mem_append.mp hr with h | h
  · have h2 : r ∈ List.insertionSort distLE (labelled q 0 stored) :=
      (List.take_sublist _ _).subset h
    have h3 : r ∈ labelled q 0 stored := (List.mem_insertionSort distLE).mp h2
    obtain ⟨ha, hb, hc⟩ := mem_labelled q 0 stored r h3
    refine ⟨fun _ => by simpa using hb, hc, fun hneg => absurd (by simpa using ha) hneg⟩
  · have h2 := List.eq_of_mem_replicate h
    subst h2
    refine ⟨fun h0 => absurd h0 (by decide), le_of_lt padDistance_pos, fun _ => rfl⟩

theorem pyGet_ofNat {α : Type} (l : List α) (i : ℕ) : pyGet l (i : Int) = l[i]? := by
  simp [pyGet, Int.ofNat_nonneg]

theorem pyGet_nonneg {α : Type} (l : List α) (i : Int) (h : 0 ≤ i) :
    pyGet l i = l[i.toNat]? := by
  rw [pyGet, if_pos h]

theorem pyGet_negOne {α : Type} (l : List α) (h : l ≠ []) :
    pyGet l (-1 : Int) = l.getLast? := by
  have hlen : 1 ≤ l.length := by
    cases l with
    | nil => exact absurd rfl h
    | cons a t => simp
  simp only [pyGet]
  rw [if_neg (by decide), if_pos (by simpa using hlen)]
  rw [List.getLast?_eq_getElem?]
  norm_num

theorem filterMap_eq_map_of {α β : Type} (f : α → Option β) (g : α → β) :
    ∀ (l : List α), (∀ a ∈ l, f a = some (g a)) → l.filterMap f = l.map g
  | [], _ => rfl
  | a :: t, h => by
    have ha := h a (List.mem_cons_self a t)
    have ht := filterMap_eq_map_of f g t (fun x hx => h x (List.mem_cons_of_mem a hx))
    simp [List.filterMap_cons, ha, ht]

theorem store_documents_ne_nil (s : FAISSVectorStore)
    (hlen : s.vectors.length = s.documents.length) (hne : s.vectors ≠ []) :
    s.documents ≠ [] := by
  intro h
  apply hne
  have : s.vectors.length = 0 := by rw [hlen, h]; rfl
  exact List.length_eq_zero.mp this

theorem search_eq_map (s : FAISSVectorStore) (q : List ℚ) (k : ℕ)
    (hlen : s.vectors.length = s.documents.length) (hne : s.vectors ≠ []) :
    s.search q k = (faissFlatSearch s.vectors q k).map
      (fun r => ((pyGet s.documents r.1).getD default, distToSim r.2)) := by
  have hdne : s.documents ≠ [] := store_documents_ne_nil s hlen hne
  unfold FAISSVectorStore.search
  rw [if_neg (fun h => hne (List.length_eq_zero.mp h))]
  apply filterMap_eq_map_of
  intro r hr
  obtain ⟨hbound, _, hpad⟩ := mem_faissFlatSearch s.vectors q k r hr
  by_cases h0 : 0 ≤ r.1
  · have hlt : r.1 < (s.documents.length : Int) := hlen ▸ hbound h0
    rw [if_pos hlt]
    obtain ⟨i, hi⟩ := Int.eq_ofNat_of_zero_le h0
    rw [hi] at hlt
    have hilt : i < s.documents.length := by exact_mod_cast hlt
    rw [hi, pyGet_ofNat, List.getElem?_eq_getElem hilt]
    rfl
  · have hpadEq := hpad h0
    subst hpadEq
    have hg : ((-1 : Int)) < (s.documents.length : Int) := by
      have := Int.natCast_nonneg s.documents.length
      omega
    rw [if_pos hg, pyGet_negOne s.documents hdne,
      List.getLast?_eq_getLast_of_ne_nil hdne]
    rfl

theorem extractEmbeddings_ok_length : ∀ (docs : List Doc) (embs : List (List ℚ)),
    FAISSVectorStore.extractEmbeddings docs = .ok embs → embs.length = docs.length
  | [], embs, h => by
    simp only [FAISSVectorStore.extractEmbeddings] at h
    cases h
    rfl
  | d :: ds, embs, h => by
    simp only [FAISSVectorStore.extractEmbeddings] at h
    cases he : d.embedding with
    | none => rw [he] at h; cases h
    | some e =>
      rw [he] at h
      cases hr : FAISSVectorStore.extractEmbeddings ds with
      | error msg => rw [hr] at h; cases h
      | ok rest =>
        rw [hr] at h
        cases h
        simp [extractEmbeddings_ok_length ds rest hr]

theorem extractEmbeddings_error : ∀ (docs : List Doc),
    (∃ d ∈ docs, d.embedding = none) →
    FAISSVectorStore.extractEmbeddings docs =
      .error "Document missing \x27embedding\x27 field"
  | [], h => by
    obtain ⟨d, hd, _⟩ := h
    exact absurd hd (List.not_mem_nil d)
  | d :: ds, h => by
    simp only [FAISSVectorStore.extractEmbeddings]
    cases he : d.embedding with
    | none => rfl
    | some e =>
      obtain ⟨d2, hd2, hemb⟩ := h
      rcases List.mem_cons.mp hd2 with h1 | h1
      · subst h1; rw [he] at hemb; cases hemb
      · rw [extractEmbeddings_error ds ⟨d2, h1, hemb⟩]

theorem applyOp_counts (s : FAISSVectorStore) (op : StoreOp)
    (h : s.vectors.length = s.documents.length) :
    (applyOp s op).vectors.length = (applyOp s op).documents.length := by
  cases op with
  | clear => simp [applyOp, FAISSVectorStore.clear]
  | add docs =>
    simp only [applyOp, FAISSVectorStore.add_documents]
    by_cases hd : docs.isEmpty
    · simp [hd, h]
    · rw [if_neg hd]
      cases hext : FAISSVectorStore.extractEmbeddings docs with
      | error e => simp [hext, h]
      | ok embs =>
        have hlen := extractEmbeddings_ok_length docs embs hext
        simp [hext, List.length_append, h, hlen]

theorem foldl_counts : ∀ (ops : List StoreOp) (s : FAISSVectorStore),
    s.vectors.length = s.documents.length →
    (ops.foldl applyOp s).vectors.length = (ops.foldl applyOp s).documents.length
  | [], _, h => h
  | op :: t, s, h => foldl_counts t (applyOp s op) (applyOp_counts s op h)

theorem flatStore_counts (d : ℕ) (ops : List StoreOp) :
    (flatStore d ops).vectors.length = (flatStore d ops).documents.length :=
  foldl_counts ops (FAISSVectorStore.empty d "flat") rfl

theorem distToSim_pos {d : ℚ} (h : 0 ≤ d) : 0 < distToSim d := by
  unfold distToSim
  positivity

theorem distToSim_le_one {d : ℚ} (h : 0 ≤ d) : distToSim d ≤ 1 := by
  unfold distToSim
  rw [div_le_one (by positivity)]
  linarith

theorem distToSim_lt_iff {d1 d2 : ℚ} (h1 : 0 ≤ d1) (h2 : 0 ≤ d2) :
    (distToSim d2 < distToSim d1 ↔ d1 < d2) := by
  unfold distToSim
  rw [div_lt_div_iff_of_pos_left one_pos (by positivity) (by positivity)]
  constructor <;> intro h <;> linarith

theorem dictLookup_dictSet_self {α : Type} : ∀ (l : List (String × α)) (k : String) (v : α),
    dictLookup (dictSet l k v) k = some v
  | [], k, v => by simp [dictSet, dictLookup, List.find?]
  | (k2, v2) :: t, k, v => by
    by_cases h : k2 = k
    · simp [dictSet, h, dictLookup, List.find?]
    · simp only [dictSet, if_neg h, dictLookup, List.find?]
      rw [show ((k2 == k) = false) from beq_false_of_ne h]
      exact dictLookup_dictSet_self t k v

theorem dictLookup_dictSet_other {α : Type} :
    ∀ (l : List (String × α)) (k1 k2 : String) (v : α), k1 ≠ k2 →
    dictLookup (dictSet l k1 v) k2 = dictLookup l k2
  | [], k1, k2, v, h => by
    have hb : (k1 == k2) = false := by simp [h]
    simp [dictSet, dictLookup, List.find?, hb]
  | (k3, v3) :: t, k1, k2, v, h => by
    by_cases h3 : k3 = k1
    · subst h3
      have hb : (k3 == k2) = false := by simp [h]
      simp [dictSet, dictLookup, List.find?, hb]
    · simp only [dictSet, if_neg h3]
      by_cases hk : k3 = k2
      · subst hk
        simp [dictLookup, List.find?]
      · have hb : (k3 == k2) = false := by simp [hk]
        simp only [dictLookup, List.find?, hb]
        exact dictLookup_dictSet_other t k1 k2 v h

theorem loadOne_dimension (disk : Disk) (base : String) (m : MultiIndexManager)
    (name : String) : (loadOne disk base m name).dimension = m.dimension := by
  unfold loadOne
  cases disk.indexFiles (indexPath base name) <;>
    cases disk.docFiles (docsPath base name) <;> rfl

theorem loadOne_missing (disk : Disk) (base : String) (m : MultiIndexManager)
    (name : String)
    (h : (disk.indexFiles (indexPath base name)).isNone ∨
      (disk.docFiles (docsPath base name)).isNone) :
    loadOne disk base m name = m := by
  unfold loadOne
  cases h1 : disk.indexFiles (indexPath base name) with
  | none => rfl
  | some vecs =>
    cases h2 : disk.docFiles (docsPath base name) with
    | none => rfl
    | some docsL => rw [h1, h2] at h; simp at h

theorem loadOne_lookup_other (disk : Disk) (base : String) (m : MultiIndexManager)
    (name c : String) (h : name ≠ c) :
    dictLookup (loadOne disk base m name).indexes c = dictLookup m.indexes c := by
  unfold loadOne
  cases disk.indexFiles (indexPath base name) with
  | none => rfl
  | some vecs =>
    cases disk.docFiles (docsPath base name) with
    | none => rfl
    | some docsL => exact dictLookup_dictSet_other m.indexes name c _ h

theorem foldl_lookup_notmem (disk : Disk) (base : String) :
    ∀ (names : List String) (m : MultiIndexManager) (c : String), c ∉ names →
    dictLookup ((names.foldl (loadOne disk base) m).indexes) c = dictLookup m.indexes c
  | [], _, _, _ => rfl
  | name :: rest, m, c, h => by
    have hne : name ≠ c := fun he => h (he ▸ List.mem_cons_self name rest)
    have hrest : c ∉ rest := fun hr => h (List.mem_cons_of_mem name hr)
    simp only [List.foldl_cons]
    rw [foldl_lookup_notmem disk base rest (loadOne disk base m name) c hrest]
    exact loadOne_lookup_other disk base m name c hne

theorem load_fold_lookup (disk : Disk) (base : String) :
    ∀ (names : List String) (acc : MultiIndexManager) (c : String), c ∈ names →
    ((∀ vecs docsL, disk.indexFiles (indexPath base c) = some vecs →
        disk.docFiles (docsPath base c) = some docsL →
        dictLookup ((names.foldl (loadOne disk base) acc).indexes) c =
          some { dimension := acc.dimension, indexType := "flat",
                 vectors := vecs, documents := docsL }) ∧
      (((disk.indexFiles (indexPath base c)).isNone ∨
          (disk.docFiles (docsPath base c)).isNone) →
        dictLookup ((names.foldl (loadOne disk base) acc).indexes) c =
          dictLookup acc.indexes c))
  | [], _, c, hc => absurd hc (List.not_mem_nil c)
  | name :: rest, acc, c, hc => by
    simp only [List.foldl_cons]
    by_cases hcr : c ∈ rest
    · obtain ⟨ih1, ih2⟩ :=
        load_fold_lookup disk base rest (loadOne disk base acc name) c hcr
      constructor
      · intro vecs docsL hv hd
        rw [ih1 vecs docsL hv hd, loadOne_dimension]
      · intro hmiss
        rw [ih2 hmiss]
        by_cases hnc : name = c
        · subst hnc
          rw [loadOne_missing disk base acc name hmiss]
        · rw [loadOne_lookup_other disk base acc name c hnc]
    · have hnc : name = c := by
        rcases List.mem_cons.mp hc with h | h
        · exact h.symm
        · exact absurd h hcr
      subst hnc
      rw [foldl_lookup_notmem disk base rest (loadOne disk base acc name) name hcr]
      constructor
      · intro vecs docsL hv hd
        simp only [loadOne, hv, hd]
        exact dictLookup_dictSet_self acc.indexes name _
      · intro hmiss
        rw [loadOne_missing disk base acc name hmiss]

/-! ## Claim theorems -/

/-- C2: every similarity returned by a flat-index search equals
`1 / (1 + d)` for the squared distance `d` the backend reported for that
result, every such similarity lies in `(0, 1]`, and for nonnegative
distances the similarity is strictly smaller exactly when the squared
distance is strictly larger. -/
theorem C2_similarity_bounds :
    (∀ (s : FAISSVectorStore) (q : List ℚ) (k : ℕ) (p : Doc × ℚ),
        p ∈ s.search q k →
        (∃ r ∈ faissFlatSearch s.vectors q k, p.2 = distToSim r.2 ∧ 0 ≤ r.2) ∧
        0 < p.2 ∧ p.2 ≤ 1) ∧
    (∀ d1 d2 : ℚ, 0 ≤ d1 → 0 ≤ d2 → (distToSim d2 < distToSim d1 ↔ d1 < d2)) := by
  constructor
  · intro s q k p hp
    rw [FAISSVectorStore.search] at hp
    by_cases h0 : s.vectors.length = 0
    · rw [if_pos h0] at hp
      exact absurd hp (List.not_mem_nil p)
    · rw [if_neg h0] at hp
      obtain ⟨r, hr, hfr⟩ := List.mem_filterMap.mp hp
      by_cases hg : r.1 < (s.documents.length : Int)
      · rw [if_pos hg] at hfr
        cases hpg : pyGet s.documents r.1 with
        | none => rw [hpg] at hfr; cases hfr
        | some d2 =>
          rw [hpg] at hfr
          have hpr : (d2, distToSim r.2) = p := Option.some.inj hfr
          have hp2 : p.2 = distToSim r.2 := by rw [← hpr]
          have hr2 : 0 ≤ r.2 := (mem_faissFlatSearch s.vectors q k r hr).2.1
          refine ⟨⟨r, hr, hp2, hr2⟩, ?_, ?_⟩
          · rw [hp2]; exact distToSim_pos hr2
          · rw [hp2]; exact distToSim_le_one hr2
      · rw [if_neg hg] at hfr
        cases hfr
  · intro d1 d2 h1 h2
    exact distToSim_lt_iff h1 h2

/-- C2 witness: a concrete search result of the three-document store and
the monotonicity instance at distances 0 and 1. -/
theorem C2_witness :
    ((∃ r ∈ faissFlatSearch exStore.vectors [0] 1,
        ((exDoc0, (1 : ℚ))).2 = distToSim r.2 ∧ 0 ≤ r.2) ∧
      0 < ((exDoc0, (1 : ℚ))).2 ∧ ((exDoc0, (1 : ℚ))).2 ≤ 1) ∧
    (distToSim 1 < distToSim 0 ↔ (0 : ℚ) < 1) :=
  ⟨C2_similarity_bounds.1 exStore [0] 1 (exDoc0, 1) (by
      rw [show exStore.search [0] 1 = [(exDoc0, 1)] from by
        norm_num [exStore, exDoc0, exDoc1, exDoc2, flatStore, applyOp,
          FAISSVectorStore.add_documents, FAISSVectorStore.extractEmbeddings,
          FAISSVectorStore.empty, FAISSVectorStore.search, faissFlatSearch, labelled,
          sqDist, distToSim, List.insertionSort, List.orderedInsert, pyGet,
          padDistance, distLE, List.filterMap_cons]]
      exact List.mem_singleton_self _),
   C2_similarity_bounds.2 0 1 (by norm_num) (by norm_num)⟩

/-- C5: every pair surviving the similarity-threshold filter of `query`
has similarity at least the threshold, and a larger threshold never keeps
more results than a smaller one over the same semantic results. -/
theorem C5_threshold_filtering (t t2 : ℚ) (rs : List (Doc × ℚ)) (h : t ≤ t2) :
    (∀ p ∈ thresholdFilter t rs, t ≤ p.2) ∧
    (thresholdFilter t2 rs).length ≤ (thresholdFilter t rs).length := by
  constructor
  · intro p hp
    have hm := List.mem_filter.mp hp
    exact of_decide_eq_true hm.2
  · have heq : thresholdFilter t2 rs =
        List.filter (fun r => decide (t2 ≤ r.2)) (thresholdFilter t rs) := by
      unfold thresholdFilter
      rw [List.filter_filter]
      apply List.filter_congr
      intro a _
      by_cases h2 : t2 ≤ a.2
      · have h1 : t ≤ a.2 := le_trans h h2
        simp [h1, h2]
      · simp [h2]
    rw [heq]
    exact List.length_filter_le _ _

/-- C5 witness: the specification scenario, thresholds 0.3 and 0.5 over
similarities 0.9, 0.4, 0.2. -/
theorem C5_witness :
    (∀ p ∈ thresholdFilter (3 / 10)
        [(exDoc0, (9 : ℚ) / 10), (exDoc1, 2 / 5), (exDoc2, 1 / 5)], (3 : ℚ) / 10 ≤ p.2) ∧
    (thresholdFilter (1 / 2)
        [(exDoc0, (9 : ℚ) / 10), (exDoc1, 2 / 5), (exDoc2, 1 / 5)]).length ≤
      (thresholdFilter (3 / 10)
        [(exDoc0, (9 : ℚ) / 10), (exDoc1, 2 / 5), (exDoc2, 1 / 5)]).length :=
  C5_threshold_filtering (3 / 10) (1 / 2)
    [(exDoc0, (9 : ℚ) / 10), (exDoc1, 2 / 5), (exDoc2, 1 / 5)] (by norm_num)

/-- C7: a non-empty batch containing a document without an `embedding`
field makes `add_documents` raise the validation error, and the store
(both the FAISS vectors and the parallel document list) is unchanged. -/
theorem C7_add_validation_atomic (s : FAISSVectorStore) (docs : List Doc)
    (h1 : docs ≠ []) (h2 : ∃ d ∈ docs, d.embedding = none) :
    s.add_documents docs =
      Except.error "Document missing \x27embedding\x27 field" ∧
    applyOp s (StoreOp.add docs) = s := by
  have herr := extractEmbeddings_error docs h2
  have hne : docs.isEmpty = false := by
    cases docs with
    | nil => exact absurd rfl h1
    | cons a t => rfl
  constructor
  · rw [FAISSVectorStore.add_documents, if_neg (by simp [hne]), herr]
  · simp [applyOp, FAISSVectorStore.add_documents, hne, herr]

/-- C7 witness: adding a batch whose second document lacks the embedding
field to the three-document store errors and leaves the store intact. -/
theorem C7_witness :
    exStore.add_documents [exDoc1, exDocBad] =
      Except.error "Document missing \x27embedding\x27 field" ∧
    applyOp exStore (StoreOp.add [exDoc1, exDocBad]) = exStore :=
  C7_add_validation_atomic exStore [exDoc1, exDocBad] (by decide)
    ⟨exDocBad, by decide, rfl⟩

/-- C1 counterexample: over-requesting from a one-document store (k = 2)
yields a second result whose backend-reported index is the padding label
`-1`, which is no insertion position at all, so the claim that every
returned pair carries the document added at the reported position fails. -/
theorem C1_counterexample : ¬ ClaimC1 := by
  intro h
  obtain ⟨-, hsearch⟩ := h 1 [StoreOp.add [exDoc0]] [0] 2
  obtain ⟨i, dist, hraw, -⟩ :=
    hsearch 1 (exDoc0, distToSim padDistance) (by
      norm_num [flatStore, applyOp, FAISSVectorStore.add_documents,
        FAISSVectorStore.extractEmbeddings, FAISSVectorStore.empty,
        FAISSVectorStore.search, faissFlatSearch, labelled, sqDist, distToSim,
        List.insertionSort, List.orderedInsert, pyGet, padDistance, distLE,
        List.filterMap_cons, Int.toNat, List.replicate, exDoc0])
  have hval : (faissFlatSearch (flatStore 1 [StoreOp.add [exDoc0]]).vectors [0] 2)[1]? =
      some ((-1 : Int), padDistance) := by
    norm_num [flatStore, applyOp, FAISSVectorStore.add_documents,
      FAISSVectorStore.extractEmbeddings, FAISSVectorStore.empty,
      faissFlatSearch, labelled, sqDist, List.insertionSort, List.orderedInsert,
      padDistance, distLE, List.replicate, exDoc0]
  rw [hval] at hraw
  have hfst : ((-1 : Int), padDistance).1 = ((i : Int), dist).1 :=
    congrArg Prod.fst (Option.some.inj hraw)
  simp only at hfst
  omega

/-- C1 (amended): after any sequence of `add_documents` and `clear` calls
on a flat store the vector count equals the document count, and every
search result whose backend-reported index is nonnegative carries the
document added at exactly that position (with the reported similarity
`1 / (1 + dist)`); results reported with the padding index `-1` carry the
last-added document instead. -/
theorem C1_parallel_array (d : ℕ) (ops : List StoreOp) (q : List ℚ) (k : ℕ) :
    vectorDocCountsMatch (flatStore d ops) ∧
    (∀ (j : ℕ) (pr : Doc × ℚ), ((flatStore d ops).search q k)[j]? = some pr →
      ∃ (idx : Int) (dist : ℚ),
        (faissFlatSearch (flatStore d ops).vectors q k)[j]? = some (idx, dist) ∧
        pr.2 = distToSim dist ∧
        (0 ≤ idx → (flatStore d ops).documents[idx.toNat]? = some pr.1) ∧
        (idx = -1 → (flatStore d ops).documents.getLast? = some pr.1)) := by
  have hlen := flatStore_counts d ops
  refine ⟨hlen, ?_⟩
  intro j pr hj
  by_cases hne : (flatStore d ops).vectors = []
  · rw [FAISSVectorStore.search, if_pos (by rw [hne]; rfl)] at hj
    simp at hj
  · have hdne : (flatStore d ops).documents ≠ [] :=
      store_documents_ne_nil _ hlen hne
    rw [search_eq_map _ q k hlen hne, List.getElem?_map] at hj
    cases hraw : (faissFlatSearch (flatStore d ops).vectors q k)[j]? with
    | none => rw [hraw] at hj; cases hj
    | some r =>
      rw [hraw] at hj
      have hpr : ((pyGet (flatStore d ops).documents r.1).getD default,
          distToSim r.2) = pr := Option.some.inj hj
      have hmem : r ∈ faissFlatSearch (flatStore d ops).vectors q k := by
        obtain ⟨hlt, hget⟩ := List.getElem?_eq_some.mp hraw
        exact hget ▸ List.getElem_mem hlt
      obtain ⟨hbound, -, -⟩ :=
        mem_faissFlatSearch (flatStore d ops).vectors q k r hmem
      refine ⟨r.1, r.2, by rw [Prod.mk.eta], by rw [← hpr], ?_, ?_⟩
      · intro h0
        have hlt : r.1 < ((flatStore d ops).documents.length : Int) :=
          hlen ▸ hbound h0
        have hltn : r.1.toNat < (flatStore d ops).documents.length := by omega
        have hpy : pyGet (flatStore d ops).documents r.1 =
            some ((flatStore d ops).documents[r.1.toNat]) := by
          rw [pyGet_nonneg _ _ h0, List.getElem?_eq_getElem hltn]
        rw [List.getElem?_eq_getElem hltn, ← hpr, hpy]
        rfl
      · intro hneg
        have hpy : pyGet (flatStore d ops).documents r.1 =
            some ((flatStore d ops).documents.getLast hdne) := by
          rw [hneg, pyGet_negOne _ hdne, List.getLast?_eq_getLast_of_ne_nil hdne]
        rw [← hpr, hpy, List.getLast?_eq_getLast_of_ne_nil hdne]
        rfl

/-- C1 witness: the first result of a two-document store search is
reported at index 0 and carries the document added at position 0. -/
theorem C1_witness :
    ∃ (idx : Int) (dist : ℚ),
      (faissFlatSearch (flatStore 1 [StoreOp.add [exDoc0, exDoc1]]).vectors [0] 2)[0]? =
        some (idx, dist) ∧
      ((exDoc0, (1 : ℚ))).2 = distToSim dist ∧
      (0 ≤ idx →
        (flatStore 1 [StoreOp.add [exDoc0, exDoc1]]).documents[idx.toNat]? =
          some ((exDoc0, (1 : ℚ))).1) ∧
      (idx = -1 →
        (flatStore 1 [StoreOp.add [exDoc0, exDoc1]]).documents.getLast? =
          some ((exDoc0, (1 : ℚ))).1) :=
  (C1_parallel_array 1 [StoreOp.add [exDoc0, exDoc1]] [0] 2).2 0 (exDoc0, 1) (by
    norm_num [flatStore, applyOp, FAISSVectorStore.add_documents,
      FAISSVectorStore.extractEmbeddings, FAISSVectorStore.empty,
      FAISSVectorStore.search, faissFlatSearch, labelled, sqDist, distToSim,
      List.insertionSort, List.orderedInsert, pyGet, padDistance, distLE,
      List.filterMap_cons, Int.toNat, List.replicate, exDoc0, exDoc1])

/-- C10: when a flat store holds `n` documents with `0 < n < k`, `search`
returns exactly `k` pairs; each of the final `k - n` pairs comes from a
padding row `(-1, FLT_MAX)` of the backend, passes the `idx < len` guard,
and carries the last-added document with a positive but near-zero
similarity `1 / (1 + FLT_MAX)`. -/
theorem C10_over_request (d : ℕ) (ops : List StoreOp) (q : List ℚ) (k : ℕ)
    (h1 : 0 < (flatStore d ops).documents.length)
    (h2 : (flatStore d ops).documents.length < k) :
    ((flatStore d ops).search q k).length = k ∧
    ∀ j, (flatStore d ops).documents.length ≤ j → j < k →
      ∃ dl, (flatStore d ops).documents.getLast? = some dl ∧
        ((flatStore d ops).search q k)[j]? = some (dl, distToSim padDistance) ∧
        (faissFlatSearch (flatStore d ops).vectors q k)[j]? =
          some ((-1 : Int), padDistance) ∧
        0 < distToSim padDistance ∧ distToSim padDistance < 1 / 2 ^ 100 := by
  have hlen := flatStore_counts d ops
  have hne : (flatStore d ops).vectors ≠ [] := by
    intro h
    rw [h] at hlen
    simp only [List.length_nil] at hlen
    omega
  have hdne : (flatStore d ops).documents ≠ [] :=
    store_documents_ne_nil _ hlen hne
  have hmap := search_eq_map (flatStore d ops) q k hlen hne
  have hraw : ∀ j, (flatStore d ops).documents.length ≤ j → j < k →
      (faissFlatSearch (flatStore d ops).vectors q k)[j]? =
        some ((-1 : Int), padDistance) := by
    intro j hj1 hj2
    unfold faissFlatSearch
    have htoplen :
        ((List.insertionSort distLE
          (labelled q 0 (flatStore d ops).vectors)).take k).length =
          (flatStore d ops).vectors.length := by
      rw [List.length_take, (List.perm_insertionSort distLE _).length_eq,
        length_labelled]
      omega
    rw [List.getElem?_append_right (by omega), List.getElem?_replicate,
      if_pos (by omega)]
  constructor
  · rw [hmap, List.length_map, faissFlatSearch_length]
  · intro j hj1 hj2
    refine ⟨(flatStore d ops).documents.getLast hdne,
      List.getLast?_eq_getLast_of_ne_nil hdne, ?_, hraw j hj1 hj2, ?_, ?_⟩
    · rw [hmap, List.getElem?_map, hraw j hj1 hj2]
      show some ((pyGet (flatStore d ops).documents (-1 : Int)).getD default,
        distToSim padDistance) = _
      rw [pyGet_negOne _ hdne, List.getLast?_eq_getLast_of_ne_nil hdne]
      rfl
    · exact distToSim_pos (le_of_lt padDistance_pos)
    · rw [distToSim, padDistance]
      rw [div_lt_div_iff_of_pos_left one_pos (by positivity) (by positivity)]
      norm_num

/-- C10 witness: a one-document store searched with k = 2 returns two
pairs, the second a padded duplicate of the last document. -/
theorem C10_witness :
    ((flatStore 1 [StoreOp.add [exDoc0]]).search [0] 2).length = 2 ∧
    (∃ dl, (flatStore 1 [StoreOp.add [exDoc0]]).documents.getLast? = some dl ∧
      ((flatStore 1 [StoreOp.add [exDoc0]]).search [0] 2)[1]? =
        some (dl, distToSim padDistance) ∧
      (faissFlatSearch (flatStore 1 [StoreOp.add [exDoc0]]).vectors [0] 2)[1]? =
        some ((-1 : Int), padDistance) ∧
      0 < distToSim padDistance ∧ distToSim padDistance < 1 / 2 ^ 100) := by
  have h := C10_over_request 1 [StoreOp.add [exDoc0]] [0] 2 (by decide) (by decide)
  exact ⟨h.1, h.2 1 (by decide) (by decide)⟩

/-- Helper shared by the query-level claims: when the structured attempt
yields nothing (or is disabled), `query` runs the semantic branch. -/
theorem query_eq_semanticBranch (sys : HybridRAGSystem) (qt : String) (us : Bool)
    (h1 : us = true → try_structured_query sys qt = none) :
    query sys qt us = semanticBranch sys qt := by
  cases us with
  | false => rfl
  | true => simp only [query, h1 rfl, ite_self]

/-- C3: a query containing an employee-id token with a matching structured
record short-circuits: search method `"structured"`, the fixed confidence
0.9 independent of the match, exactly that record as sole source, and
neither the embedding provider nor the vector indexes are invoked. -/
theorem C3_structured_short_circuit (sys : HybridRAGSystem) (qt : String)
    (m : List Char) (doc : Doc)
    (h1 : findEmpMatch (qt.toList.map Char.toLower) = some m)
    (h2 : find_one_employee sys.db_employees (String.mk (m.map Char.toUpper)) =
      some doc) :
    (query sys qt true).1.search_method = "structured" ∧
    (query sys qt true).1.confidence = 9 / 10 ∧
    (query sys qt true).1.sources = [doc] ∧
    (query sys qt true).2.usedEmbedding = false ∧
    (query sys qt true).2.usedVectorIndexes = false := by
  have hts : try_structured_query sys qt = some [doc] := by
    simp only [try_structured_query, h1, h2]
  simp [query, hts, format_response]

/-- C3 witness: the specification scenario query "Employee EMP1001"
against a store holding EMP1001. -/
theorem C3_witness :
    (query exSys "Employee EMP1001" true).1.search_method = "structured" ∧
    (query exSys "Employee EMP1001" true).1.confidence = 9 / 10 ∧
    (query exSys "Employee EMP1001" true).1.sources = [exEmployee] ∧
    (query exSys "Employee EMP1001" true).2.usedEmbedding = false ∧
    (query exSys "Employee EMP1001" true).2.usedVectorIndexes = false :=
  C3_structured_short_circuit exSys "Employee EMP1001" "emp1001".toList exEmployee
    (by decide) (by decide)

/-- C4: the fan-out semantic search over the three registered category
indexes returns at most `k` pairs, sorted descending by similarity, and
every returned pair (document and identical similarity score) appears in
the result the owning category index itself returns for the same query
vector and `k`. -/
theorem C4_fan_out_merge (sys : HybridRAGSystem) (qt : String) (k : ℕ) :
    (query_semantic sys qt k).length ≤ k ∧
    List.Sorted (fun a b => b.2 ≤ a.2) (query_semantic sys qt k) ∧
    ∀ p ∈ query_semantic sys qt k,
      p ∈ sys.employee_index.search (sys.embed qt) k ∨
      p ∈ sys.attendance_index.search (sys.embed qt) k ∨
      p ∈ sys.leave_index.search (sys.embed qt) k := by
  refine ⟨?_, ?_, ?_⟩
  · simp [query_semantic]
  · exact List.Pairwise.sublist (List.take_sublist _ _)
      (List.sorted_insertionSort _ _)
  · intro p hp
    have h1 : p ∈ List.insertionSort (fun a b => b.2 ≤ a.2)
        (sys.employee_index.search (sys.embed qt) k ++
          sys.attendance_index.search (sys.embed qt) k ++
          sys.leave_index.search (sys.embed qt) k) :=
      (List.take_sublist _ _).subset hp
    have h2 := (List.mem_insertionSort _).mp h1
    rcases List.mem_append.mp h2 with h3 | h3
    · rcases List.mem_append.mp h3 with h4 | h4
      · exact Or.inl h4
      · exact Or.inr (Or.inl h4)
    · exact Or.inr (Or.inr h3)

/-- C4 witness: a merged result of the fixture system is a pair the
employee index itself reported. -/
theorem C4_witness :
    (exDoc0, (1 : ℚ)) ∈ exSys.employee_index.search (exSys.embed "hello") 5 ∨
    (exDoc0, (1 : ℚ)) ∈ exSys.attendance_index.search (exSys.embed "hello") 5 ∨
    (exDoc0, (1 : ℚ)) ∈ exSys.leave_index.search (exSys.embed "hello") 5 :=
  (C4_fan_out_merge exSys "hello" 5).2.2 (exDoc0, 1) (by
    rw [show query_semantic exSys "hello" 5 = [(exDoc0, 1), (exDoc1, 1 / 2),
        (exDoc2, 1 / 5), (exDoc2, distToSim padDistance),
        (exDoc2, distToSim padDistance)] from by
      norm_num [query_semantic, exSys, exStore, exDoc0, exDoc1, exDoc2, flatStore,
        applyOp, FAISSVectorStore.add_documents, FAISSVectorStore.extractEmbeddings,
        FAISSVectorStore.empty, FAISSVectorStore.search, faissFlatSearch, labelled,
        sqDist, distToSim, List.insertionSort, List.orderedInsert, pyGet,
        padDistance, distLE, List.filterMap_cons, Int.toNat, List.replicate]]
    exact List.mem_cons_self _ _)

/-- C6: a semantically answered query with at least one surviving result
reports as confidence the arithmetic mean of the surviving similarity
scores; in particular mean similarities 0.9 and 0.4 yield 0.65. -/
theorem C6_mean_confidence (sys : HybridRAGSystem) (qt : String) (us : Bool)
    (h1 : us = true → try_structured_query sys qt = none)
    (h2 : thresholdFilter SIMILARITY_THRESHOLD
      (query_semantic sys qt TOP_K_RESULTS) ≠ []) :
    (query sys qt us).1.confidence =
      mean ((thresholdFilter SIMILARITY_THRESHOLD
        (query_semantic sys qt TOP_K_RESULTS)).map Prod.snd) ∧
    (query sys qt us).1.search_method = "semantic" ∧
    mean [9 / 10, 2 / 5] = 13 / 20 := by
  rw [query_eq_semanticBranch sys qt us h1]
  have hie : (thresholdFilter SIMILARITY_THRESHOLD
      (query_semantic sys qt TOP_K_RESULTS)).isEmpty = false := by
    rw [List.isEmpty_eq_false]
    exact h2
  refine ⟨?_, ?_, by norm_num [mean]⟩
  · simp [semanticBranch, hie, format_response]
  · simp [semanticBranch, hie, format_response]

/-- C6 witness: the fixture system answers "hello" semantically with
surviving similarities 1 and 1/2, so the confidence is their mean. -/
theorem C6_witness :
    (query exSys "hello" false).1.confidence =
      mean ((thresholdFilter SIMILARITY_THRESHOLD
        (query_semantic exSys "hello" TOP_K_RESULTS)).map Prod.snd) ∧
    (query exSys "hello" false).1.search_method = "semantic" ∧
    mean [9 / 10, 2 / 5] = 13 / 20 :=
  C6_mean_confidence exSys "hello" false (fun h => absurd h (by decide)) (by
    rw [show thresholdFilter SIMILARITY_THRESHOLD
        (query_semantic exSys "hello" TOP_K_RESULTS) = [(exDoc0, 1), (exDoc1, 1 / 2)]
      from by
        norm_num [thresholdFilter, SIMILARITY_THRESHOLD, TOP_K_RESULTS, query_semantic,
          exSys, exStore, exDoc0, exDoc1, exDoc2, flatStore, applyOp,
          FAISSVectorStore.add_documents, FAISSVectorStore.extractEmbeddings,
          FAISSVectorStore.empty, FAISSVectorStore.search, faissFlatSearch, labelled,
          sqDist, distToSim, List.insertionSort, List.orderedInsert, pyGet,
          padDistance, distLE, List.filterMap_cons, Int.toNat, List.replicate,
          List.filter]]
    simp)

/-- C8: when the structured attempt finds nothing and no semantic result
survives the threshold, `query` returns normally with the no-results
answer, zero confidence, empty sources, method `"semantic"`, and the
language model is not invoked. -/
theorem C8_no_results (sys : HybridRAGSystem) (qt : String) (us : Bool)
    (h1 : us = true → try_structured_query sys qt = none)
    (h2 : thresholdFilter SIMILARITY_THRESHOLD
      (query_semantic sys qt TOP_K_RESULTS) = []) :
    (query sys qt us).1.answer =
      "No relevant information found. Please rephrase your question." ∧
    (query sys qt us).1.confidence = 0 ∧
    (query sys qt us).1.sources = [] ∧
    (query sys qt us).1.search_method = "semantic" ∧
    (query sys qt us).2.usedLLM = false := by
  rw [query_eq_semanticBranch sys qt us h1]
  simp [semanticBranch, h2]

/-- C8 witness: the all-empty-index fixture finds nothing for "hello". -/
theorem C8_witness :
    (query exSysEmpty "hello" false).1.answer =
      "No relevant information found. Please rephrase your question." ∧
    (query exSysEmpty "hello" false).1.confidence = 0 ∧
    (query exSysEmpty "hello" false).1.sources = [] ∧
    (query exSysEmpty "hello" false).1.search_method = "semantic" ∧
    (query exSysEmpty "hello" false).2.usedLLM = false :=
  C8_no_results exSysEmpty "hello" false (fun h => absurd h (by decide)) (by
    norm_num [thresholdFilter, SIMILARITY_THRESHOLD, TOP_K_RESULTS, query_semantic,
      exSysEmpty, FAISSVectorStore.empty, FAISSVectorStore.search,
      List.insertionSort])

/-- C9 counterexample: a registry load over a directory missing both
artifacts of the `employees` category raises no error at all — `load_all`
returns normally — so the claim that a missing artifact is a fatal error
for that category is false. -/
theorem C9_counterexample : ¬ ClaimC9 := by
  intro h
  obtain ⟨e, he⟩ := h exMgr exDisk "base" ["employees", "attendance"] "employees"
    (by decide) (Or.inl (by decide))
  simp [load_all] at he

/-- C9 (amended): `load_all` never raises; a category whose two artifacts
both exist is loaded into the registry as a fresh flat store of the
manager dimension holding exactly the persisted vectors and documents,
while a category missing either artifact is silently skipped — its
registry entry is left unchanged — without affecting the other
categories. -/
theorem C9_per_category_load (m : MultiIndexManager) (disk : Disk) (base : String)
    (names : List String) :
    load_all m disk base names = .ok (names.foldl (loadOne disk base) m) ∧
    ∀ c ∈ names,
      (∀ vecs docsL, disk.indexFiles (indexPath base c) = some vecs →
        disk.docFiles (docsPath base c) = some docsL →
        dictLookup ((names.foldl (loadOne disk base) m).indexes) c =
          some { dimension := m.dimension, indexType := "flat",
                 vectors := vecs, documents := docsL }) ∧
      (((disk.indexFiles (indexPath base c)).isNone ∨
          (disk.docFiles (docsPath base c)).isNone) →
        dictLookup ((names.foldl (loadOne disk base) m).indexes) c =
          dictLookup m.indexes c) :=
  ⟨rfl, fun c hc => load_fold_lookup disk base names m c hc⟩

/-- C9 witness: loading `employees` (artifacts missing) and `attendance`
(both artifacts present) keeps the old `employees` entry and loads the
`attendance` store from disk, with no error. -/
theorem C9_witness :
    load_all exMgr exDisk "base" ["employees", "attendance"] =
      .ok (["employees", "attendance"].foldl (loadOne exDisk "base") exMgr) ∧
    dictLookup ((["employees", "attendance"].foldl
        (loadOne exDisk "base") exMgr).indexes) "attendance" =
      some { dimension := exMgr.dimension, indexType := "flat",
             vectors := [[0]], documents := [exDoc0] } ∧
    dictLookup ((["employees", "attendance"].foldl
        (loadOne exDisk "base") exMgr).indexes) "employees" =
      dictLookup exMgr.indexes "employees" := by
  have h := C9_per_category_load exMgr exDisk "base" ["employees", "attendance"]
  refine ⟨h.1, ?_, ?_⟩
  · exact (h.2 "attendance" (by decide)).1 [[0]] [exDoc0] (by decide) (by decide)
  · exact (h.2 "employees" (by decide)).2 (Or.inl (by decide))

end Spec2Proof
